import Mathlib

/-!
# Verification of the lds-angular data-source provider

Shallow embedding of `ListDataSourceProvider` (src/unnamed/part_004) and of the
small pieces of `@arp0d3v/lds-core` state it manipulates.  JavaScript values
relevant to the provider are modelled by `Lds.JsVal`; machine numbers are
modelled by `Int` (all quantities involved are integral); `Array.prototype.sort`
is modelled by a stable merge sort (`Lds.jsMergeSort`), written with an explicit
fuel argument so that it is kernel-computable.
-/

set_option autoImplicit false

namespace Lds

/-- A JavaScript primitive value as it appears in filter objects and sort keys.
Numbers are modelled by `Int` (every number handled by the provider is integral). -/
inductive JsVal where
  | undefined
  | null
  | num (n : Int)
  | str (s : String)
  | bool (b : Bool)
deriving DecidableEq, Repr

/-- JavaScript `v == null`, which is true exactly for `null` and `undefined`. -/
def jsIsNullish (v : JsVal) : Bool :=
  v == JsVal.null || v == JsVal.undefined

/-- JavaScript numeric subtraction `a - b` as used by the numeric comparators;
non-numeric operands would give `NaN`, which `Array.prototype.sort` treats like
a zero (`NaN < 0` and `NaN > 0` are both false), so that case is modelled by `0`. -/
def jsNumSub (a b : JsVal) : Int :=
  match a, b with
  | JsVal.num x, JsVal.num y => x - y
  | _, _ => 0

/-- Sign of an `Ordering`, as the integer a JavaScript comparator returns. -/
def orderingToInt (o : Ordering) : Int :=
  match o with
  | Ordering.lt => -1
  | Ordering.eq => 0
  | Ordering.gt => 1

/-- JavaScript `a.localeCompare(b)` modelled by code-point string comparison
(locale collation is not modelled; no claim below depends on the relative order
of two non-null strings beyond the concrete ASCII examples). Non-string operands
are modelled by `0`. -/
def jsLocaleCompare (a b : JsVal) : Int :=
  match a, b with
  | JsVal.str x, JsVal.str y => orderingToInt (compare x y)
  | _, _ => 0

/-! ## A stable merge sort modelling `Array.prototype.sort`

`Array.prototype.sort` is (since ES2019) a stable comparison sort; it is
modelled here by a top-down stable merge sort.  The recursion is driven by an
explicit fuel argument so every definition is structurally recursive and hence
computable by the kernel (`decide` / `rfl` work on concrete inputs).  The
zero-fuel fallbacks are never reached when the fuel is at least the input
length, which every caller ensures. -/

/-- Merge two lists, taking from the left while `le` holds (fuelled). -/
def jsMergeFuel {α : Type} (le : α → α → Bool) : Nat → List α → List α → List α
  | _, [], ys => ys
  | _, x :: xs, [] => x :: xs
  | 0, xs, ys => xs ++ ys
  | fuel + 1, x :: xs, y :: ys =>
    if le x y then x :: jsMergeFuel le fuel xs (y :: ys)
    else y :: jsMergeFuel le fuel (x :: xs) ys

/-- Merge two lists with exactly enough fuel. -/
def jsMerge {α : Type} (le : α → α → Bool) (xs ys : List α) : List α :=
  jsMergeFuel le (xs.length + ys.length) xs ys

/-- Top-down merge sort (fuelled): split in contiguous halves, sort, merge. -/
def jsMergeSortFuel {α : Type} (le : α → α → Bool) : Nat → List α → List α
  | _, [] => []
  | _, [x] => [x]
  | 0, l => l
  | fuel + 1, x :: y :: rest =>
    let l := x :: y :: rest
    let n := l.length / 2
    jsMerge le (jsMergeSortFuel le fuel (l.take n)) (jsMergeSortFuel le fuel (l.drop n))

/-- `arr.sort(cmp)` modelled as a stable merge sort with `le a b ↔ cmp a b ≤ 0`. -/
def jsMergeSort {α : Type} (le : α → α → Bool) (l : List α) : List α :=
  jsMergeSortFuel le l.length l

/-! ## The four local sort comparators (`sort_asc` … `sort_desc_string`)

Items are an arbitrary type `α`; the JavaScript property access `a[sortField]`
is modelled by a valuation `val : α → String → JsVal` supplied by the caller. -/

/-- Comparator of `sort_asc`: nullish `a` sorts as greater, nullish `b` as
smaller, otherwise numeric subtraction `aVal - bVal`. -/
def sortAscCmp {α : Type} (val : α → String → JsVal) (sortField : String) (a b : α) : Int :=
  let aVal := val a sortField
  let bVal := val b sortField
  if jsIsNullish aVal then 1
  else if jsIsNullish bVal then -1
  else jsNumSub aVal bVal

/-- Comparator of `sort_desc`: checks `bVal` for nullish first, otherwise
`bVal - aVal`. -/
def sortDescCmp {α : Type} (val : α → String → JsVal) (sortField : String) (a b : α) : Int :=
  let aVal := val a sortField
  let bVal := val b sortField
  if jsIsNullish bVal then -1
  else if jsIsNullish aVal then 1
  else jsNumSub bVal aVal

/-- Comparator of `sort_asc_string`: nullish checks, then `localeCompare`. -/
def sortAscStringCmp {α : Type} (val : α → String → JsVal) (sortField : String) (a b : α) : Int :=
  if jsIsNullish (val a sortField) then 1
  else if jsIsNullish (val b sortField) then -1
  else jsLocaleCompare (val a sortField) (val b sortField)

/-- Comparator of `sort_desc_string`: checks `b` first, then reversed
`localeCompare`. -/
def sortDescStringCmp {α : Type} (val : α → String → JsVal) (sortField : String) (a b : α) : Int :=
  if jsIsNullish (val b sortField) then -1
  else if jsIsNullish (val a sortField) then 1
  else jsLocaleCompare (val b sortField) (val a sortField)

/-- `sort_asc` of the provider: `arr.sort((a,b) => …)`. -/
def sort_asc {α : Type} (val : α → String → JsVal) (arr : List α) (sortField : String) : List α :=
  jsMergeSort (fun a b => decide (sortAscCmp val sortField a b ≤ 0)) arr

/-- `sort_desc` of the provider. -/
def sort_desc {α : Type} (val : α → String → JsVal) (arr : List α) (sortField : String) : List α :=
  jsMergeSort (fun a b => decide (sortDescCmp val sortField a b ≤ 0)) arr

/-- `sort_asc_string` of the provider. -/
def sort_asc_string {α : Type} (val : α → String → JsVal) (arr : List α) (sortField : String) : List α :=
  jsMergeSort (fun a b => decide (sortAscStringCmp val sortField a b ≤ 0)) arr

/-- `sort_desc_string` of the provider. -/
def sort_desc_string {α : Type} (val : α → String → JsVal) (arr : List α) (sortField : String) : List α :=
  jsMergeSort (fun a b => decide (sortDescStringCmp val sortField a b ≤ 0)) arr

/-! ## `sortItemsLocally` and its memoization -/

/-- The slice of an `LdsField` that `sortItemsLocally` reads and writes:
the (immutable) name and the mutable `dataType`. -/
structure LdsField where
  name : String
  dataType : Option String
  visible : Bool
deriving DecidableEq, Repr

/-- The slice of a `ListDataSource` instance that `sortItemsLocally` touches.
`val` models the JavaScript property access `item[sortField]`; `defaultDir` is
`config.sort.defaultDir`.  The field registry (`ds.field(name)`, an O(1) lookup
by name in lds-core) is modelled by a first-match search of `fieldList`. -/
structure SortableDs (α : Type) where
  sourceItems : List α
  appliedSortName : Option String
  sort1Dir : Option String
  defaultDir : Option String
  fieldList : List LdsField
  val : α → String → JsVal

/-- `ds.field(name)`: resolve a field by name (first match). -/
def dsField {α : Type} (ds : SortableDs α) (name : String) : Option LdsField :=
  ds.fieldList.find? (fun fl => fl.name == name)

/-- JavaScript mutation `field.dataType = dt` on the object returned by
`ds.field(name)`: updates the first field with that name. -/
def updateFieldDataType (fields : List LdsField) (name : String) (dt : String) : List LdsField :=
  match fields with
  | [] => []
  | fl :: rest =>
    if fl.name == name then { fl with dataType := some dt } :: rest
    else fl :: updateFieldDataType rest name dt

/-- JavaScript `field.dataType || 'number'` (`undefined` and `''` are falsy). -/
def dataTypeOrNumber (o : Option String) : String :=
  match o with
  | none => "number"
  | some t => if t = "" then "number" else t

/-- JavaScript `a || b` on optional strings (`undefined` and `''` are falsy). -/
def jsOrStr (a b : Option String) : Option String :=
  match a with
  | some s => if s = "" then b else some s
  | none => b

/-- JavaScript template interpolation of a possibly-undefined string. -/
def jsRenderOptStr (a : Option String) : String :=
  match a with
  | some s => s
  | none => "undefined"

/-- `sortItemsLocally(ds, fieldName)` of the provider: guards on missing
field name / unknown field, defaults `field.dataType` to `'number'`, memoizes
on `appliedSortName`, and otherwise sorts `sourceItems` with the comparator
selected by direction and data type (`ds.setSourceItems` of lds-core, which
replaces the source array, is modelled by assigning `sourceItems`). -/
def sortItemsLocally {α : Type} (ds : SortableDs α) (fieldName : Option String) : SortableDs α :=
  match fieldName with
  | none => ds
  | some f =>
    if f = "" then ds
    else
      match dsField ds f with
      | none => ds
      | some field =>
        let dataType : String := dataTypeOrNumber field.dataType
        let fields' := updateFieldDataType ds.fieldList f dataType
        let dir := jsOrStr ds.sort1Dir ds.defaultDir
        let applyingSortName := f ++ " " ++ jsRenderOptStr dir
        if ds.appliedSortName = some applyingSortName then
          { ds with fieldList := fields' }
        else
          let sorted :=
            if dir = some "desc" then
              if dataType = "string" then sort_desc_string ds.val ds.sourceItems f
              else sort_desc ds.val ds.sourceItems f
            else
              if dataType = "string" then sort_asc_string ds.val ds.sourceItems f
              else sort_asc ds.val ds.sourceItems f
          { ds with
              fieldList := fields'
              appliedSortName := some applyingSortName
              sourceItems := sorted }

/-! ## Windowing (`getPageItemsLocally`) -/

/-- A source item together with the `RowNumberLds` property the windowing loop
writes onto it. -/
structure LdsItem (α : Type) where
  value : α
  rowNumberLds : Option Int
deriving DecidableEq, Repr

/-- The pagination sub-state read and written by `getPageItemsLocally`. -/
structure LdsPagination where
  pageIndex : Int
  pageSize : Int
  startItemIndex : Int
  endItemIndex : Int
deriving DecidableEq, Repr

/-- The slice of a local data source that `getPageItemsLocally` touches:
`state.pagination`, `state.totalItemCount` and `ds.sourceItems`. -/
structure DsLocal (α : Type) where
  pagination : LdsPagination
  totalItemCount : Int
  sourceItems : List (LdsItem α)
deriving DecidableEq, Repr

/-- `Math.ceil(a / b)` for `a ≥ 0 < b` (the only case the provider reaches,
since `overfolwCount > 1` and `pageSize > 0` there). -/
def mathCeilDiv (a b : Int) : Int :=
  (a + b - 1) / b

/-- The `while` loop of `getPageItemsLocally`: collect the items at indices
`start ≤ i < stop` that exist, stamping each with `RowNumberLds = i + 1`.
(The loop enters with `start ≥ 0`, guaranteed by the preceding clamp.) -/
def windowItems {α : Type} (src : List (LdsItem α)) (start stop : Int) : List (LdsItem α) :=
  (List.range src.length).filterMap fun k =>
    match src[k]? with
    | some it =>
      if start ≤ (k : Int) ∧ (k : Int) < stop then
        some { it with rowNumberLds := some ((k : Int) + 1) }
      else none
    | none => none

/-- `getPageItemsLocally(ds)` of the provider: returns the updated state
together with the returned page slice.  (The loop also mutates the items in
place inside `ds.sourceItems`; only the returned slice is modelled.) -/
def getPageItemsLocally {α : Type} (ds : DsLocal α) : DsLocal α × List (LdsItem α) :=
  if ds.pagination.pageSize ≤ 0 ∨ ds.pagination.pageSize ≥ ds.totalItemCount then
    (ds, ds.sourceItems)
  else
    let pag := ds.pagination
    let overfolwCount := pag.startItemIndex + pag.pageSize - ds.totalItemCount
    let pag :=
      if overfolwCount > 1 then
        { pag with
            startItemIndex := pag.startItemIndex - overfolwCount
            pageIndex :=
              if pag.pageIndex > 0 then pag.pageIndex - mathCeilDiv overfolwCount pag.pageSize
              else pag.pageIndex }
      else pag
    let pag :=
      if pag.startItemIndex < 0 then { pag with startItemIndex := 0, pageIndex := 0 }
      else pag
    let pag := { pag with endItemIndex := pag.startItemIndex + pag.pageSize }
    let items := windowItems ds.sourceItems pag.startItemIndex pag.endItemIndex
    ({ ds with pagination := pag }, items)

/-! ## Query-string encoding (`toQueryStringEncoded`) -/

/-- JavaScript string conversion of a primitive, as performed by
`'' + v` / template interpolation / `encodeURIComponent`'s ToString step. -/
def jsToString (v : JsVal) : String :=
  match v with
  | JsVal.undefined => "undefined"
  | JsVal.null => "null"
  | JsVal.num n => toString n
  | JsVal.str s => s
  | JsVal.bool b => if b then "true" else "false"

/-- Hexadecimal digit (uppercase), for percent-encoding. -/
def hexDigit (n : Nat) : Char :=
  if n < 10 then Char.ofNat (48 + n) else Char.ofNat (55 + n)

/-- UTF-8 bytes of a Unicode code point. -/
def utf8Bytes (c : Nat) : List Nat :=
  if c < 0x80 then [c]
  else if c < 0x800 then [0xC0 + c / 0x40, 0x80 + c % 0x40]
  else if c < 0x10000 then
    [0xE0 + c / 0x1000, 0x80 + (c / 0x40) % 0x40, 0x80 + c % 0x40]
  else
    [0xF0 + c / 0x40000, 0x80 + (c / 0x1000) % 0x40, 0x80 + (c / 0x40) % 0x40, 0x80 + c % 0x40]

/-- `%XX` escape of one byte. -/
def percentByte (b : Nat) : String :=
  String.mk [Char.ofNat 37, hexDigit (b / 16), hexDigit (b % 16)]

/-- The characters `encodeURIComponent` leaves unescaped:
`A–Z a–z 0–9 - _ . ! ~ * ' ( )`. -/
def isUriUnescaped (ch : Char) : Bool :=
  ch.isAlphanum || ch ∈ ['-', '_', '.', '!', '~', '*', Char.ofNat 39, '(', ')']

/-- `encodeURIComponent(s)`. -/
def encodeURIComponent (s : String) : String :=
  String.join (s.data.map fun ch =>
    if isUriUnescaped ch then String.mk [ch]
    else String.join ((utf8Bytes ch.toNat).map percentByte))

/-- The strict keep test of `toQueryStringEncoded`:
`obj[key] !== null && obj[key] !== undefined && obj[key] !== ''`. -/
def queryKeep (v : JsVal) : Bool :=
  v != JsVal.null && v != JsVal.undefined && v != JsVal.str ""

/-- `toQueryStringEncoded(obj)` of the provider: a filter object is modelled
by its key/value pairs in `Object.keys` order. -/
def toQueryStringEncoded (obj : List (String × JsVal)) : String :=
  String.intercalate "&"
    (((obj.map fun kv =>
        if queryKeep kv.2 then kv.1 ++ "=" ++ encodeURIComponent (jsToString kv.2)
        else "")).filter
      (fun x => x != ""))

/-! ## The cache store (`_saveCacheToLocalStorage`, `_cleanOldCaches`)

A `LdsCacheModel` produced by `_toDataSourceCache` always carries an ISO-8601
`date`; it is modelled here by its parsed timestamp in milliseconds (an `Int`),
which is exactly what both the eviction comparator (`new Date(d).getTime()`)
and the expiry check consume.  The `state`/`filters` payloads are opaque to
every cache operation and are modelled as strings. -/

def MAX_CACHE_SIZE : Nat := 50

def CACHE_EXPIRATION_HOURS : Int := 168

/-- A persisted cache entry (`LdsCacheModel`) on the save path. -/
structure CacheModel where
  id : String
  pathName : String
  date : Int
  type : String
  state : String
  filters : String
  fieldList : List (String × Bool)
deriving DecidableEq, Repr

/-- `` `${id}|${pathName}` `` — the key of the cache index. -/
def getCacheKey (id pathName : String) : String :=
  id ++ "|" ++ pathName

/-- The key of an entry. -/
def cacheKeyOf (c : CacheModel) : String :=
  getCacheKey c.id c.pathName

/-- JavaScript `Map.get`. -/
def mapGet {V : Type} (m : List (String × V)) (k : String) : Option V :=
  (m.find? (fun p => p.1 == k)).map (fun p => p.2)

/-- JavaScript `Map.set`: replace in place when the key exists, else append. -/
def mapSet {V : Type} (m : List (String × V)) (k : String) (v : V) : List (String × V) :=
  if m.any (fun p => p.1 == k) then
    m.map (fun p => if p.1 == k then (k, v) else p)
  else m ++ [(k, v)]

/-- JavaScript `Map.delete`. -/
def mapDelete {V : Type} (m : List (String × V)) (k : String) : List (String × V) :=
  m.filter (fun p => p.1 != k)

/-- The provider's in-memory cache state: the `dsCaches` array and the
`_cacheMap` index. -/
structure CacheStore where
  dsCaches : List CacheModel
  cacheMap : List (String × CacheModel)
deriving DecidableEq, Repr

/-- The eviction comparator `(a, b) => dateB - dateA` as a merge-sort `le`:
`a` may precede `b` iff `b.date - a.date ≤ 0` (date descending). -/
def dateDescLe (a b : CacheModel) : Bool :=
  decide (b.date - a.date ≤ 0)

/-- `_cleanOldCaches()`: sort by date descending, keep the newest 40 entries,
delete the removed keys from the index. -/
def cleanOldCaches (st : CacheStore) : CacheStore :=
  let sorted := jsMergeSort dateDescLe st.dsCaches
  let kept := sorted.take 40
  let removed := sorted.drop 40
  { dsCaches := kept
    cacheMap := removed.foldl (fun m c => mapDelete m (cacheKeyOf c)) st.cacheMap }

/-- Overwrite the mutable fields of an existing entry with those of the new
snapshot (`cacheItem.date = newCache.date; …`). -/
def overwriteEntry (old n : CacheModel) : CacheModel :=
  { old with date := n.date, filters := n.filters, state := n.state,
             type := n.type, fieldList := n.fieldList }

/-- The in-place mutation of the array element aliased by the index entry:
update the first entry of `dsCaches` with the given key. -/
def updateFirstByKey (l : List CacheModel) (k : String) (n : CacheModel) : List CacheModel :=
  match l with
  | [] => []
  | c :: rest =>
    if cacheKeyOf c == k then overwriteEntry c n :: rest
    else c :: updateFirstByKey rest k n

/-- The update-or-insert phase of `_saveCacheToLocalStorage` (everything before
the persist): update in place when the key exists, else evict first when the
store is at capacity and push. -/
def insertPhase (st : CacheStore) (n : CacheModel) : CacheStore :=
  let cacheKey := cacheKeyOf n
  match mapGet st.cacheMap cacheKey with
  | some old =>
    { dsCaches := updateFirstByKey st.dsCaches cacheKey n
      cacheMap := mapSet st.cacheMap cacheKey (overwriteEntry old n) }
  | none =>
    let st1 := if st.dsCaches.length ≥ MAX_CACHE_SIZE then cleanOldCaches st else st
    { dsCaches := st1.dsCaches ++ [n]
      cacheMap := mapSet st1.cacheMap cacheKey n }

/-- `_safeStorageSet`: the underlying `setItem` call may throw (quota,
security); its outcome is supplied as an `Except`.  The catch converts a throw
into `false`, so the wrapper itself never propagates an exception. -/
def safeStorageSet (raw : Except String Unit) : Bool :=
  match raw with
  | Except.ok _ => true
  | Except.error _ => false

/-- `_saveCacheToLocalStorage(newCache)`.  `raw i` is the outcome of the
`i`-th underlying `storage.setItem` call of this save.  The returned list
records the store states whose serialization was handed to `setItem` (one
entry per persist attempt).  The `Except` return type records whether any
exception escapes to the caller: none ever does (the body's only fallible
calls are wrapped by `_safeStorageSet`, and the whole body sits in a
`try … catch`). -/
def saveCacheToLocalStorage (st : CacheStore) (n : CacheModel)
    (raw : Nat → Except String Unit) : Except String (CacheStore × List CacheStore) :=
  let st1 := insertPhase st n
  let saved := safeStorageSet (raw 0)
  if saved then Except.ok (st1, [st1])
  else
    let st2 := cleanOldCaches st1
    let retried := safeStorageSet (raw 1)
    let _ := retried
    Except.ok (st2, [st1, st2])

/-- Run one save for its resulting store (the error branch is unreachable). -/
def runSave (st : CacheStore) (n : CacheModel) (raw : Nat → Except String Unit) : CacheStore :=
  match saveCacheToLocalStorage st n raw with
  | Except.ok (s, _) => s
  | Except.error _ => st

/-- A sequence of saves starting from the empty store; each operation carries
its entry and its storage outcomes. -/
def runSaves (ops : List (CacheModel × (Nat → Except String Unit))) : CacheStore :=
  ops.foldl (fun s op => runSave s op.1 op.2) { dsCaches := [], cacheMap := [] }

/-! ## Construction-time load (`_loadDsCaches`, `_isCacheValid`) -/

/-- A raw entry of the persisted JSON array: every field may be absent.  The
`state` payload is opaque; only its presence matters to the load filter. -/
structure RawCache where
  id : Option String
  pathName : Option String
  state : Option String
  date : Option String
  type : Option String
deriving DecidableEq, Repr

/-- JavaScript truthiness of a possibly-absent string (`undefined` and `''`
are falsy). -/
def jsTruthyOptStr (o : Option String) : Bool :=
  match o with
  | none => false
  | some s => s ≠ ""

/-- `_isCacheValid(cache)`: false when `date` is falsy or unparsable
(`getTime()` is `NaN`, and `NaN < 168` is false); otherwise require
`(now - date) / 3600000 < 168`, i.e. `now - date < 604800000` ms.
`parseDate` models `new Date(string).getTime()` (`none` = invalid date). -/
def isCacheValid (parseDate : String → Option Int) (now : Int) (c : RawCache) : Bool :=
  match c.date with
  | none => false
  | some d =>
    if d = "" then false
    else
      match parseDate d with
      | none => false
      | some t => decide (now - t < CACHE_EXPIRATION_HOURS * 3600000)

/-- The key `` `${id}|${pathName}` `` rendered from raw (possibly absent)
fields, as template interpolation would. -/
def rawCacheKey (c : RawCache) : String :=
  jsRenderOptStr c.id ++ "|" ++ jsRenderOptStr c.pathName

/-- `_rebuildCacheMap()`: clear the index and re-insert every cache under its
key (later duplicates overwrite earlier ones in place). -/
def rebuildCacheMap (caches : List RawCache) : List (String × RawCache) :=
  caches.foldl (fun m c => mapSet m (rawCacheKey c) c) []

/-- `_loadDsCaches()` on a successfully parsed array: keep the entries whose
`id`, `pathName` and `state` are truthy and which are still valid, then
rebuild the index.  Returns `(dsCaches, cacheMap)`. -/
def loadDsCaches (parsed : List RawCache) (parseDate : String → Option Int)
    (now : Int) : List RawCache × List (String × RawCache) :=
  let caches := parsed.filter fun c =>
    jsTruthyOptStr c.id && jsTruthyOptStr c.pathName && jsTruthyOptStr c.state &&
      isCacheValid parseDate now c
  (caches, rebuildCacheMap caches)

/-! ## The remote fetch callback (`_getDataFromRemoteByGetMethod` /
`_getDataFromRemoteByPostMethod`)

The transport result envelope is `LdsInputModel`; its items are opaque.  The
instance operations invoked by the callback are traced: `setData` and
`clearState` live in lds-core, so their effect on the instance is modelled
from the spec (see the doc comments below) while the call itself is recorded
in the event trace. -/

/-- The transport result envelope `{items, total, error?}`. -/
structure LdsInputModel where
  items : List JsVal
  total : Int
  error : Bool
deriving DecidableEq, Repr

/-- One observable action of the remote-fetch callback, in program order. -/
inductive RemoteAction where
  | dataLoaded (r : LdsInputModel)
  | setDataCall (r : LdsInputModel)
  | stateChanged (e : String)
  | setIsLoading (b : Bool)
  | clearStateCall
deriving DecidableEq, Repr

/-- The slice of a remote `ListDataSource` the callback touches, plus the
trace of actions performed on it. -/
structure RemoteDs where
  events : List RemoteAction
  isLoading : Bool
  items : List JsVal
  total : Int
  sort1Name : Option String
  sort1Dir : Option String
  pageIndex : Int
deriving DecidableEq, Repr

/-- `ds.onDataLoaded.emit(result)`. -/
def emitDataLoaded (r : LdsInputModel) (ds : RemoteDs) : RemoteDs :=
  { ds with events := ds.events ++ [RemoteAction.dataLoaded r] }

/-- Modelled from the spec: `setData({items, total})` (lds-core) installs the
current page's items and total count.  The call is recorded in the trace. -/
def setData (r : LdsInputModel) (ds : RemoteDs) : RemoteDs :=
  { ds with items := r.items, total := r.total,
            events := ds.events ++ [RemoteAction.setDataCall r] }

/-- `ds.onStateChanged.emit(e)`. -/
def emitStateChanged (e : String) (ds : RemoteDs) : RemoteDs :=
  { ds with events := ds.events ++ [RemoteAction.stateChanged e] }

/-- `ds.isLoading = b`. -/
def setLoading (b : Bool) (ds : RemoteDs) : RemoteDs :=
  { ds with isLoading := b, events := ds.events ++ [RemoteAction.setIsLoading b] }

/-- Modelled from the spec: `clearState()` (lds-core) clears the instance's
sort/pagination state.  The call is recorded in the trace. -/
def clearState (ds : RemoteDs) : RemoteDs :=
  { ds with sort1Name := none, sort1Dir := none, pageIndex := 0,
            events := ds.events ++ [RemoteAction.clearStateCall] }

/-- The callback `_getDataFromRemoteByGetMethod` passes to `httpGet`,
translated line by line from the source. -/
def getMethodCallback (r : LdsInputModel) (ds : RemoteDs) : RemoteDs :=
  let ds := emitDataLoaded r ds
  let ds := setData r ds
  let ds := emitStateChanged "DataLoaded" ds
  let ds := setLoading false ds
  if r.error then clearState ds else ds

/-- The callback `_getDataFromRemoteByPostMethod` passes to `httpPost`
(textually identical to the GET one in the source). -/
def postMethodCallback (r : LdsInputModel) (ds : RemoteDs) : RemoteDs :=
  let ds := emitDataLoaded r ds
  let ds := setData r ds
  let ds := emitStateChanged "DataLoaded" ds
  let ds := setLoading false ds
  if r.error then clearState ds else ds

/-! ## Concrete instances used by witnesses and counterexamples -/

/-- A state in the early-return branch (`pageSize ≥ totalItemCount`) whose
pre-existing `endItemIndex` is stale. -/
def c1StaleDs : DsLocal Nat :=
  { pagination := { pageIndex := 0, pageSize := 5, startItemIndex := 0, endItemIndex := 100 }
    totalItemCount := 3
    sourceItems := [] }

/-- A state on the windowing path: 5 items, page size 2. -/
def c1WindowDs : DsLocal Nat :=
  { pagination := { pageIndex := 0, pageSize := 2, startItemIndex := 0, endItemIndex := 0 }
    totalItemCount := 5
    sourceItems := (List.range 5).map (fun n => { value := n, rowNumberLds := none }) }

/-- The spec scenario: 101 local items, `pageSize = 10`, `loadPage(10)`
(0-based), hence `startItemIndex = 100`. -/
def c5Ds : DsLocal Nat :=
  { pagination := { pageIndex := 10, pageSize := 10, startItemIndex := 100, endItemIndex := 0 }
    totalItemCount := 101
    sourceItems := (List.range 101).map (fun n => { value := n, rowNumberLds := none }) }

/-- A cache entry with id `i` and date `i` (newer entries have larger `i`). -/
def mkCacheEntry (i : Nat) : CacheModel :=
  { id := toString i, pathName := "/list", date := (i : Int), type := "remote",
    state := "state", filters := "filters", fieldList := [] }

/-- A store holding exactly `MAX_CACHE_SIZE` = 50 entries with distinct keys,
as reached by 50 saves of distinct keys from the empty store. -/
def store50 : CacheStore :=
  { dsCaches := (List.range 50).map mkCacheEntry
    cacheMap := (List.range 50).map (fun i => (cacheKeyOf (mkCacheEntry i), mkCacheEntry i)) }

/-- A storage whose every `setItem` succeeds. -/
def okStorage : Nat → Except String Unit := fun _ => Except.ok ()

/-- A storage whose every `setItem` throws (e.g. quota exceeded). -/
def failStorage : Nat → Except String Unit := fun _ => Except.error "QuotaExceededError"

/-- A concrete date parser for the witnesses: `new Date(s).getTime()`
restricted to the single timestamp string the concrete entries use
(`none` models an invalid date / `NaN`). -/
def parseDateStub (s : String) : Option Int := if s = "100" then some 100 else none

/-- A complete, fresh raw cache entry. -/
def c6Dup1 : RawCache :=
  { id := some "grid", pathName := some "/list", state := some "s1",
    date := some "100", type := some "remote" }

/-- A second complete, fresh raw cache entry with the same key as `c6Dup1`
but a different payload. -/
def c6Dup2 : RawCache :=
  { id := some "grid", pathName := some "/list", state := some "s2",
    date := some "100", type := some "remote" }

theorem length_jsMergeFuel {α : Type} (le : α → α → Bool) :
    ∀ (fuel : Nat) (xs ys : List α),
      (jsMergeFuel le fuel xs ys).length = xs.length + ys.length := by
  intro fuel
  induction fuel with
  | zero =>
    intro xs ys
    cases xs with
    | nil => simp [jsMergeFuel]
    | cons x xs =>
      cases ys with
      | nil => simp [jsMergeFuel]
      | cons y ys =>
        simp [jsMergeFuel]
        omega
  | succ f ih =>
    intro xs ys
    cases xs with
    | nil => simp [jsMergeFuel]
    | cons x xs =>
      cases ys with
      | nil => simp [jsMergeFuel]
      | cons y ys =>
        by_cases h : le x y = true
        · simp [jsMergeFuel, h, ih]
          omega
        · simp [jsMergeFuel, h, ih]
          omega

theorem mem_jsMergeFuel {α : Type} (le : α → α → Bool) :
    ∀ (fuel : Nat) (xs ys : List α) (z : α),
      z ∈ jsMergeFuel le fuel xs ys → z ∈ xs ∨ z ∈ ys := by
  intro fuel
  induction fuel with
  | zero =>
    intro xs ys z hz
    cases xs with
    | nil => exact Or.inr (by simpa [jsMergeFuel] using hz)
    | cons x xs =>
      cases ys with
      | nil => exact Or.inl (by simpa [jsMergeFuel] using hz)
      | cons y ys =>
        have hz' : z ∈ (x :: xs) ++ (y :: ys) := hz
        exact List.mem_append.mp hz'
  | succ f ih =>
    intro xs ys z hz
    cases xs with
    | nil => exact Or.inr (by simpa [jsMergeFuel] using hz)
    | cons x xs =>
      cases ys with
      | nil => exact Or.inl (by simpa [jsMergeFuel] using hz)
      | cons y ys =>
        by_cases h : le x y = true
        · simp [jsMergeFuel, h] at hz
          rcases hz with rfl | hz
          · exact Or.inl (List.mem_cons_self _ _)
          · rcases ih xs (y :: ys) z hz with h1 | h2
            · exact Or.inl (List.mem_cons_of_mem _ h1)
            · exact Or.inr h2
        · simp [jsMergeFuel, h] at hz
          rcases hz with rfl | hz
          · exact Or.inr (List.mem_cons_self _ _)
          · rcases ih (x :: xs) ys z hz with h1 | h2
            · exact Or.inl h1
            · exact Or.inr (List.mem_cons_of_mem _ h2)

/-- "All nullish elements come after all non-nullish elements", phrased
pairwise: whenever `a` precedes `b`, `a` being nullish forces `b` to be. -/
def NullsLast {α : Type} (p : α → Bool) (l : List α) : Prop :=
  l.Pairwise (fun a b => p a = true → p b = true)

theorem nullsLast_jsMergeFuel {α : Type} (p : α → Bool) (le : α → α → Bool)
    (h1 : ∀ a b, p a = false → p b = true → le a b = true)
    (h2 : ∀ a b, p a = true → p b = false → le a b = false) :
    ∀ (fuel : Nat) (xs ys : List α),
      xs.length + ys.length ≤ fuel →
      NullsLast p xs → NullsLast p ys →
      NullsLast p (jsMergeFuel le fuel xs ys) := by
  intro fuel
  induction fuel with
  | zero =>
    intro xs ys hlen hx hy
    have hxe : xs = [] := by
      cases xs with
      | nil => rfl
      | cons a l => simp at hlen
    subst hxe
    simpa [jsMergeFuel] using hy
  | succ f ih =>
    intro xs ys hlen hx hy
    cases xs with
    | nil => simpa [jsMergeFuel] using hy
    | cons x xs =>
      cases ys with
      | nil => simpa [jsMergeFuel] using hx
      | cons y ys =>
        rcases List.pairwise_cons.mp hx with ⟨hxhead, hxtail⟩
        rcases List.pairwise_cons.mp hy with ⟨hyhead, hytail⟩
        by_cases h : le x y = true
        · have hrest : NullsLast p (jsMergeFuel le f xs (y :: ys)) := by
            apply ih xs (y :: ys) (by simp at hlen ⊢; omega) hxtail hy
          simp only [jsMergeFuel, h, if_pos]
          refine List.pairwise_cons.mpr ⟨?_, hrest⟩
          intro z hz hpx
          have hpy : p y = true := by
            by_contra hpy
            have := h2 x y hpx (by simpa using Bool.of_not_eq_true hpy)
            rw [this] at h
            exact Bool.false_ne_true h
          rcases mem_jsMergeFuel le f xs (y :: ys) z hz with hzx | hzy
          · exact hxhead z hzx hpx
          · rcases List.mem_cons.mp hzy with rfl | hzys
            · exact hpy
            · exact hyhead z hzys hpy
        · have hrest : NullsLast p (jsMergeFuel le f (x :: xs) ys) := by
            apply ih (x :: xs) ys (by simp at hlen ⊢; omega) hx hytail
          simp only [jsMergeFuel, h, if_neg, Bool.not_eq_true]
          refine List.pairwise_cons.mpr ⟨?_, hrest⟩
          intro z hz hpy
          have hpx : p x = true := by
            by_contra hpx
            have := h1 x y (by simpa using Bool.of_not_eq_true hpx) hpy
            exact h this
          rcases mem_jsMergeFuel le f (x :: xs) ys z hz with hzx | hzy
          · rcases List.mem_cons.mp hzx with rfl | hzxs
            · exact hpx
            · exact hxhead z hzxs hpx
          · exact hyhead z hzy hpy

theorem nullsLast_jsMergeSortFuel {α : Type} (p : α → Bool) (le : α → α → Bool)
    (h1 : ∀ a b, p a = false → p b = true → le a b = true)
    (h2 : ∀ a b, p a = true → p b = false → le a b = false) :
    ∀ (fuel : Nat) (l : List α), l.length ≤ fuel →
      NullsLast p (jsMergeSortFuel le fuel l) := by
  intro fuel
  induction fuel with
  | zero =>
    intro l hl
    have : l = [] := by
      cases l with
      | nil => rfl
      | cons a l => simp at hl
    subst this
    simp [jsMergeSortFuel, NullsLast]
  | succ f ih =>
    intro l hl
    match l with
    | [] => simp [jsMergeSortFuel, NullsLast]
    | [x] => simp [jsMergeSortFuel, NullsLast]
    | x :: y :: rest =>
      simp only [jsMergeSortFuel, jsMerge]
      apply nullsLast_jsMergeFuel p le h1 h2
      · exact Nat.le_refl _
      · apply ih
        simp at hl ⊢
        omega
      · apply ih
        simp at hl ⊢
        omega

theorem nullsLast_jsMergeSort {α : Type} (p : α → Bool) (le : α → α → Bool)
    (h1 : ∀ a b, p a = false → p b = true → le a b = true)
    (h2 : ∀ a b, p a = true → p b = false → le a b = false)
    (l : List α) : NullsLast p (jsMergeSort le l) :=
  nullsLast_jsMergeSortFuel p le h1 h2 l.length l (Nat.le_refl _)

theorem length_jsMergeSortFuel {α : Type} (le : α → α → Bool) :
    ∀ (fuel : Nat) (l : List α), (jsMergeSortFuel le fuel l).length = l.length := by
  intro fuel
  induction fuel with
  | zero =>
    intro l
    match l with
    | [] => simp [jsMergeSortFuel]
    | [x] => simp [jsMergeSortFuel]
    | x :: y :: rest => simp [jsMergeSortFuel]
  | succ f ih =>
    intro l
    match l with
    | [] => simp [jsMergeSortFuel]
    | [x] => simp [jsMergeSortFuel]
    | x :: y :: rest =>
      simp only [jsMergeSortFuel, jsMerge, length_jsMergeFuel, ih]
      simp
      omega

theorem length_jsMergeSort {α : Type} (le : α → α → Bool) (l : List α) :
    (jsMergeSort le l).length = l.length :=
  length_jsMergeSortFuel le l.length l

/-- C3: for every array of items, every sort field and both directions (and
both data types), the local sort places every item whose sort-field value is
null or undefined after every item whose value is non-null; in particular the
two concrete examples of the spec hold. -/
theorem c3_null_ordering :
    (∀ (α : Type) (val : α → String → JsVal) (arr : List α) (f : String),
        NullsLast (fun a => jsIsNullish (val a f)) (sort_asc val arr f)) ∧
    (∀ (α : Type) (val : α → String → JsVal) (arr : List α) (f : String),
        NullsLast (fun a => jsIsNullish (val a f)) (sort_desc val arr f)) ∧
    (∀ (α : Type) (val : α → String → JsVal) (arr : List α) (f : String),
        NullsLast (fun a => jsIsNullish (val a f)) (sort_asc_string val arr f)) ∧
    (∀ (α : Type) (val : α → String → JsVal) (arr : List α) (f : String),
        NullsLast (fun a => jsIsNullish (val a f)) (sort_desc_string val arr f)) ∧
    sort_asc_string (fun v _ => v) [JsVal.str "b", JsVal.null, JsVal.str "a"] "f" =
      [JsVal.str "a", JsVal.str "b", JsVal.null] ∧
    sort_asc (fun v _ => v) [JsVal.num 2, JsVal.null, JsVal.num 1] "f" =
      [JsVal.num 1, JsVal.num 2, JsVal.null] := by
  refine ⟨?_, ?_, ?_, ?_, ?_, ?_⟩
  · intro α val arr f
    apply nullsLast_jsMergeSort
    · intro a b ha hb
      simp [sortAscCmp, ha, hb]
    · intro a b ha hb
      simp [sortAscCmp, ha]
  · intro α val arr f
    apply nullsLast_jsMergeSort
    · intro a b ha hb
      simp [sortDescCmp, ha, hb]
    · intro a b ha hb
      simp [sortDescCmp, ha, hb]
  · intro α val arr f
    apply nullsLast_jsMergeSort
    · intro a b ha hb
      simp [sortAscStringCmp, ha, hb]
    · intro a b ha hb
      simp [sortAscStringCmp, ha]
  · intro α val arr f
    apply nullsLast_jsMergeSort
    · intro a b ha hb
      simp [sortDescStringCmp, ha, hb]
    · intro a b ha hb
      simp [sortDescStringCmp, ha, hb]
  · decide
  · decide

theorem find?_updateFieldDataType (fl : List LdsField) (nm dt : String) :
    (updateFieldDataType fl nm dt).find? (fun g => g.name == nm) =
      ((fl.find? (fun g => g.name == nm)).map (fun g => { g with dataType := some dt })) := by
  induction fl with
  | nil => rfl
  | cons c rest ih =>
    by_cases h : c.name = nm
    · have hb : (c.name == nm) = true := by simp [h]
      simp [updateFieldDataType, List.find?, hb, h]
    · have hb : (c.name == nm) = false := by simp [h]
      simp [updateFieldDataType, List.find?, hb, ih]

theorem updateFieldDataType_self (fl : List LdsField) (nm dt : String) :
    updateFieldDataType (updateFieldDataType fl nm dt) nm dt =
      updateFieldDataType fl nm dt := by
  induction fl with
  | nil => rfl
  | cons c rest ih =>
    by_cases h : c.name = nm
    · simp [updateFieldDataType, h]
    · simp [updateFieldDataType, h, ih]

theorem dataTypeOrNumber_ne_empty (o : Option String) : dataTypeOrNumber o ≠ "" := by
  rcases o with _ | t
  · simp [dataTypeOrNumber]
  · by_cases ht : t = "" <;> simp [dataTypeOrNumber, ht]

theorem dataTypeOrNumber_idem (o : Option String) :
    dataTypeOrNumber (some (dataTypeOrNumber o)) = dataTypeOrNumber o := by
  have h := dataTypeOrNumber_ne_empty o
  rw [show dataTypeOrNumber (some (dataTypeOrNumber o)) =
        if dataTypeOrNumber o = "" then "number" else dataTypeOrNumber o from rfl,
    if_neg h]

theorem dsField_update {α : Type} (ds ds1 : SortableDs α) (f dt : String) (field : LdsField)
    (hfield : dsField ds f = some field)
    (h1 : ds1.fieldList = updateFieldDataType ds.fieldList f dt) :
    dsField ds1 f = some { field with dataType := some dt } := by
  unfold dsField
  rw [h1, find?_updateFieldDataType]
  unfold dsField at hfield
  rw [hfield]
  rfl

theorem sortItemsLocally_hit {α : Type} (ds : SortableDs α) (f : String) (field : LdsField)
    (hf : ¬f = "") (hfield : dsField ds f = some field)
    (hmemo : ds.appliedSortName =
      some (f ++ " " ++ jsRenderOptStr (jsOrStr ds.sort1Dir ds.defaultDir))) :
    sortItemsLocally ds (some f) =
      { ds with fieldList :=
          updateFieldDataType ds.fieldList f (dataTypeOrNumber field.dataType) } := by
  simp [sortItemsLocally, hf, hfield, hmemo]

theorem sortItemsLocally_miss {α : Type} (ds : SortableDs α) (f : String) (field : LdsField)
    (hf : ¬f = "") (hfield : dsField ds f = some field)
    (hmemo : ¬ds.appliedSortName =
      some (f ++ " " ++ jsRenderOptStr (jsOrStr ds.sort1Dir ds.defaultDir))) :
    sortItemsLocally ds (some f) =
      { ds with
          fieldList := updateFieldDataType ds.fieldList f (dataTypeOrNumber field.dataType)
          appliedSortName :=
            some (f ++ " " ++ jsRenderOptStr (jsOrStr ds.sort1Dir ds.defaultDir))
          sourceItems :=
            if jsOrStr ds.sort1Dir ds.defaultDir = some "desc" then
              if dataTypeOrNumber field.dataType = "string" then
                sort_desc_string ds.val ds.sourceItems f
              else sort_desc ds.val ds.sourceItems f
            else
              if dataTypeOrNumber field.dataType = "string" then
                sort_asc_string ds.val ds.sourceItems f
              else sort_asc ds.val ds.sourceItems f } := by
  simp [sortItemsLocally, hf, hfield, hmemo]

/-- C4: `sortItemsLocally` is idempotent — a second call with the same field
name (the effective direction being recomputed from the unchanged state) hits
the `appliedSortName` memo and leaves the data source entirely unchanged. -/
theorem c4_sort_idempotent (α : Type) (ds : SortableDs α) (fieldName : Option String) :
    sortItemsLocally (sortItemsLocally ds fieldName) fieldName =
      sortItemsLocally ds fieldName := by
  match fieldName with
  | none => rfl
  | some f =>
    by_cases hf : f = ""
    · simp [sortItemsLocally, hf]
    · rcases hfield : dsField ds f with _ | field
      · simp [sortItemsLocally, hf, hfield]
      · have hfield2 : dsField
            { ds with fieldList :=
                updateFieldDataType ds.fieldList f (dataTypeOrNumber field.dataType) } f =
              some { field with dataType := some (dataTypeOrNumber field.dataType) } :=
          dsField_update ds _ f _ field hfield rfl
        by_cases hmemo : ds.appliedSortName =
            some (f ++ " " ++ jsRenderOptStr (jsOrStr ds.sort1Dir ds.defaultDir))
        · rw [sortItemsLocally_hit ds f field hf hfield hmemo]
          rw [sortItemsLocally_hit _ f
              { field with dataType := some (dataTypeOrNumber field.dataType) } hf hfield2
              (by simpa using hmemo)]
          simp [dataTypeOrNumber_idem, updateFieldDataType_self]
        · rw [sortItemsLocally_miss ds f field hf hfield hmemo]
          have hfield3 : dsField
              { ds with
                  fieldList :=
                    updateFieldDataType ds.fieldList f (dataTypeOrNumber field.dataType)
                  appliedSortName :=
                    some (f ++ " " ++ jsRenderOptStr (jsOrStr ds.sort1Dir ds.defaultDir))
                  sourceItems :=
                    if jsOrStr ds.sort1Dir ds.defaultDir = some "desc" then
                      if dataTypeOrNumber field.dataType = "string" then
                        sort_desc_string ds.val ds.sourceItems f
                      else sort_desc ds.val ds.sourceItems f
                    else
                      if dataTypeOrNumber field.dataType = "string" then
                        sort_asc_string ds.val ds.sourceItems f
                      else sort_asc ds.val ds.sourceItems f } f =
                some { field with dataType := some (dataTypeOrNumber field.dataType) } :=
            dsField_update ds _ f _ field hfield rfl
          rw [sortItemsLocally_hit _ f
              { field with dataType := some (dataTypeOrNumber field.dataType) } hf hfield3
              (by simp)]
          simp [dataTypeOrNumber_idem, updateFieldDataType_self]

/-- C1 counterexample: a state with `startItemIndex = 0 ≥ 0`,
`pageSize = 5 > 0`, `totalItemCount = 3 ≥ 0` but a stale `endItemIndex = 100`
takes the early-return branch (`pageSize ≥ totalItemCount`), which leaves the
pagination state untouched, so `endItemIndex − startItemIndex = 100 > 5`
after the call: the claimed bound fails as stated. -/
theorem c1_windowing_bound_counterexample :
    0 ≤ c1StaleDs.pagination.startItemIndex ∧
    0 < c1StaleDs.pagination.pageSize ∧
    0 ≤ c1StaleDs.totalItemCount ∧
    ¬((getPageItemsLocally c1StaleDs).1.pagination.endItemIndex -
        (getPageItemsLocally c1StaleDs).1.pagination.startItemIndex ≤
      (getPageItemsLocally c1StaleDs).1.pagination.pageSize) := by
  refine ⟨by decide, by decide, by decide, by decide⟩

/-- C1 (amended): for every state with `startItemIndex ≥ 0`, `pageSize > 0`
and `totalItemCount ≥ 0`, after `getPageItemsLocally` the pagination state
satisfies `0 ≤ startItemIndex`; and whenever the windowing path is taken
(`pageSize < totalItemCount`, i.e. the full source is not returned as-is),
also `endItemIndex − startItemIndex ≤ pageSize`. -/
theorem c1_windowing_bound (α : Type) (ds : DsLocal α)
    (h1 : 0 ≤ ds.pagination.startItemIndex)
    (h2 : 0 < ds.pagination.pageSize)
    (h3 : 0 ≤ ds.totalItemCount) :
    0 ≤ (getPageItemsLocally ds).1.pagination.startItemIndex ∧
    (ds.pagination.pageSize < ds.totalItemCount →
      (getPageItemsLocally ds).1.pagination.endItemIndex -
          (getPageItemsLocally ds).1.pagination.startItemIndex ≤
        (getPageItemsLocally ds).1.pagination.pageSize) := by
  by_cases hearly : ds.pagination.pageSize ≤ 0 ∨ ds.pagination.pageSize ≥ ds.totalItemCount
  · rw [getPageItemsLocally, if_pos hearly]
    exact ⟨h1, fun hlt => by rcases hearly with h | h <;> omega⟩
  · rw [getPageItemsLocally, if_neg hearly]
    simp only []
    split_ifs <;> constructor <;> intros <;> simp_all <;> omega

/-- C1 witness: the amended bound at a concrete windowing-path state. -/
theorem c1_windowing_bound_witness :
    (0 ≤ c1WindowDs.pagination.startItemIndex ∧
      0 < c1WindowDs.pagination.pageSize ∧
      0 ≤ c1WindowDs.totalItemCount) ∧
    (0 ≤ (getPageItemsLocally c1WindowDs).1.pagination.startItemIndex ∧
      (c1WindowDs.pagination.pageSize < c1WindowDs.totalItemCount →
        (getPageItemsLocally c1WindowDs).1.pagination.endItemIndex -
            (getPageItemsLocally c1WindowDs).1.pagination.startItemIndex ≤
          (getPageItemsLocally c1WindowDs).1.pagination.pageSize)) :=
  ⟨⟨by decide, by decide, by decide⟩,
    c1_windowing_bound Nat c1WindowDs (by decide) (by decide) (by decide)⟩

/-- C5 counterexample: in the spec scenario (101 items, `pageSize = 10`,
`startItemIndex = 100`) the overflow shift (`overfolwCount = 9 > 1`) moves the
window back to `[91, 101)`, so the call returns 10 items, not 1. -/
theorem c5_last_page_counterexample :
    (getPageItemsLocally c5Ds).2.length = 10 ∧
    ¬(getPageItemsLocally c5Ds).2.length = 1 := by
  refine ⟨by decide, by decide⟩

/-- C5 (amended): in the scenario with 101 local items, `pageSize = 10` and
`startItemIndex = 100`, the windowing algorithm shifts the window back by the
overflow (9) to avoid a trailing partial page: it returns the 10 items at
source indices 91–100 with row numbers 92–101 (the item at index 100 receives
row number 101), and sets `startItemIndex = 91`, `endItemIndex = 101` and
`pageIndex = 9`. -/
theorem c5_last_page :
    (getPageItemsLocally c5Ds).2 =
      (List.range' 91 10).map (fun k => { value := k, rowNumberLds := some ((k : Int) + 1) }) ∧
    (getPageItemsLocally c5Ds).1.pagination =
      { pageIndex := 9, pageSize := 10, startItemIndex := 91, endItemIndex := 101 } := by
  refine ⟨by decide, by decide⟩

theorem pair_string_ne_empty (k e : String) : ¬(k ++ "=" ++ e) = "" := by
  intro h
  have hl : (k ++ "=" ++ e).length = 0 := by rw [h]; rfl
  simp [String.length_append] at hl
  exact absurd hl.1.2 (by decide)

theorem queryKeep_eq_decide (v : JsVal) :
    queryKeep v =
      decide (v ≠ JsVal.null ∧ v ≠ JsVal.undefined ∧ v ≠ JsVal.str "") := by
  cases v with
  | undefined => simp [queryKeep]
  | null => simp [queryKeep]
  | num n => simp [queryKeep]
  | str s => by_cases hs : s = "" <;> simp [queryKeep, hs]
  | bool b => simp [queryKeep]

theorem toQueryStringEncoded_eq_filter (obj : List (String × JsVal)) :
    toQueryStringEncoded obj =
      String.intercalate "&"
        ((obj.filter fun kv => queryKeep kv.2).map
          (fun kv => kv.1 ++ "=" ++ encodeURIComponent (jsToString kv.2))) := by
  unfold toQueryStringEncoded
  congr 1
  induction obj with
  | nil => rfl
  | cons kv rest ih =>
    by_cases hq : queryKeep kv.2 = true
    · have hne : ((kv.1 ++ "=" ++ encodeURIComponent (jsToString kv.2)) != "") = true := by
        simp [bne]
        exact pair_string_ne_empty _ _
      simp [hq, hne, List.filter_cons, ih]
    · have hb : queryKeep kv.2 = false := Bool.of_not_eq_true hq
      simp [hb, List.filter_cons, ih]

/-- C8: the query-string encoder produces the `key=urlEncode(value)` pairs of
exactly those keys whose value is not `null`, not `undefined` and not the
empty string, joined by `&`. -/
theorem c8_query_string_format (obj : List (String × JsVal)) :
    toQueryStringEncoded obj =
      String.intercalate "&"
        ((obj.filter fun kv =>
            decide (kv.2 ≠ JsVal.null ∧ kv.2 ≠ JsVal.undefined ∧ kv.2 ≠ JsVal.str "")).map
          (fun kv => kv.1 ++ "=" ++ encodeURIComponent (jsToString kv.2))) := by
  rw [toQueryStringEncoded_eq_filter]
  have hfun : (fun kv : String × JsVal => queryKeep kv.2) =
      (fun kv : String × JsVal =>
        decide (kv.2 ≠ JsVal.null ∧ kv.2 ≠ JsVal.undefined ∧ kv.2 ≠ JsVal.str "")) :=
    funext fun kv => queryKeep_eq_decide kv.2
  rw [hfun]

/-- C10: the comparison against `null`/`undefined`/`''` is strict, so the
number `0` and the boolean `false` are kept: `0` encodes as `key=0` and
`false` as `key=false`. -/
theorem c10_strict_omission :
    (∀ (k : String) (v : JsVal),
        toQueryStringEncoded [(k, v)] =
          if v ≠ JsVal.null ∧ v ≠ JsVal.undefined ∧ v ≠ JsVal.str "" then
            k ++ "=" ++ encodeURIComponent (jsToString v)
          else "") ∧
    (∀ k : String, toQueryStringEncoded [(k, JsVal.num 0)] = k ++ "=0") ∧
    (∀ k : String, toQueryStringEncoded [(k, JsVal.bool false)] = k ++ "=false") ∧
    toQueryStringEncoded [("a", JsVal.num 0), ("b", JsVal.bool false)] = "a=0&b=false" := by
  have hsingle : ∀ (k : String) (v : JsVal),
      toQueryStringEncoded [(k, v)] =
        if v ≠ JsVal.null ∧ v ≠ JsVal.undefined ∧ v ≠ JsVal.str "" then
          k ++ "=" ++ encodeURIComponent (jsToString v)
        else "" := by
    intro k v
    rw [toQueryStringEncoded_eq_filter]
    by_cases h : v ≠ JsVal.null ∧ v ≠ JsVal.undefined ∧ v ≠ JsVal.str ""
    · have hq : queryKeep v = true := by rw [queryKeep_eq_decide]; exact decide_eq_true h
      simp [List.filter_cons, hq, h]
      rfl
    · have hq : queryKeep v = false := by
        rw [queryKeep_eq_decide]; exact decide_eq_false h
      simp [List.filter_cons, hq, h, String.intercalate]
  refine ⟨hsingle, ?_, ?_, by decide⟩
  · intro k
    rw [hsingle k (JsVal.num 0)]
    rw [if_pos (by decide)]
    rw [show encodeURIComponent (jsToString (JsVal.num 0)) = "0" from rfl]
    rw [String.append_assoc]
    rw [show (("=" : String) ++ "0") = "=0" from rfl]
  · intro k
    rw [hsingle k (JsVal.bool false)]
    rw [if_pos (by decide)]
    rw [show encodeURIComponent (jsToString (JsVal.bool false)) = "false" from rfl]
    rw [String.append_assoc]
    rw [show (("=" : String) ++ "false") = "=false" from rfl]

theorem saveCache_eq (st : CacheStore) (n : CacheModel) (raw : Nat → Except String Unit) :
    saveCacheToLocalStorage st n raw =
      Except.ok
        (if safeStorageSet (raw 0) then (insertPhase st n, [insertPhase st n])
         else (cleanOldCaches (insertPhase st n),
           [insertPhase st n, cleanOldCaches (insertPhase st n)])) := by
  unfold saveCacheToLocalStorage
  by_cases h : safeStorageSet (raw 0) = true <;> simp [h]

theorem runSave_eq (st : CacheStore) (n : CacheModel) (raw : Nat → Except String Unit) :
    runSave st n raw =
      if safeStorageSet (raw 0) then insertPhase st n
      else cleanOldCaches (insertPhase st n) := by
  unfold runSave
  rw [saveCache_eq]
  by_cases h : safeStorageSet (raw 0) = true <;> simp [h]

/-- C7: for every store, entry and storage behaviour, a save never propagates
an exception (`Except.ok` always); when the first persist fails the store is
evicted to the newest 40 entries (date descending) and the persist is retried
exactly once (the attempt list has exactly two elements), the retry outcome
being discarded; the resulting in-memory store is the evicted one. -/
theorem c7_save_never_throws (st : CacheStore) (n : CacheModel)
    (raw : Nat → Except String Unit) :
    saveCacheToLocalStorage st n raw =
      Except.ok
        (if safeStorageSet (raw 0) then (insertPhase st n, [insertPhase st n])
         else (cleanOldCaches (insertPhase st n),
           [insertPhase st n, cleanOldCaches (insertPhase st n)])) ∧
    (cleanOldCaches (insertPhase st n)).dsCaches =
      (jsMergeSort dateDescLe (insertPhase st n).dsCaches).take 40 ∧
    (cleanOldCaches (insertPhase st n)).dsCaches.length ≤ 40 := by
  refine ⟨saveCache_eq st n raw, rfl, ?_⟩
  show ((jsMergeSort dateDescLe (insertPhase st n).dsCaches).take 40).length ≤ 40
  rw [List.length_take]
  exact min_le_left _ _

theorem length_updateFirstByKey (l : List CacheModel) (k : String) (n : CacheModel) :
    (updateFirstByKey l k n).length = l.length := by
  induction l with
  | nil => rfl
  | cons c rest ih =>
    by_cases h : cacheKeyOf c == k <;> simp [updateFirstByKey, h, ih]

theorem length_cleanOldCaches (st : CacheStore) :
    (cleanOldCaches st).dsCaches.length = min 40 st.dsCaches.length := by
  show ((jsMergeSort dateDescLe st.dsCaches).take 40).length = _
  rw [List.length_take, length_jsMergeSort]

theorem insertPhase_length_le (st : CacheStore) (n : CacheModel)
    (h : st.dsCaches.length ≤ 50) : (insertPhase st n).dsCaches.length ≤ 50 := by
  cases hg : mapGet st.cacheMap (cacheKeyOf n) with
  | some old =>
    simp only [insertPhase]
    rw [hg]
    simpa [length_updateFirstByKey] using h
  | none =>
    simp only [insertPhase]
    rw [hg]
    by_cases hlen : st.dsCaches.length ≥ MAX_CACHE_SIZE
    · rw [if_pos hlen]
      have hc := length_cleanOldCaches st
      simp [hc]
    · rw [if_neg hlen]
      simp only [MAX_CACHE_SIZE] at hlen
      simp
      omega

theorem runSave_length_le (st : CacheStore) (n : CacheModel)
    (raw : Nat → Except String Unit) (h : st.dsCaches.length ≤ 50) :
    (runSave st n raw).dsCaches.length ≤ 50 := by
  rw [runSave_eq]
  by_cases hs : safeStorageSet (raw 0) = true
  · rw [if_pos hs]
    exact insertPhase_length_le st n h
  · rw [if_neg hs]
    have hc := length_cleanOldCaches (insertPhase st n)
    omega

/-- C2 (amended): starting from the empty store, the number of cache entries
never exceeds 50 after any sequence of saves (whatever the storage does);
and when the store holds 50 entries and an entry with a fresh key is saved
with the persist succeeding, eviction first reduces the store to the newest
40 entries (by date descending) and then appends the new entry, leaving 41. -/
theorem c2_cache_bound :
    (∀ ops : List (CacheModel × (Nat → Except String Unit)),
        (runSaves ops).dsCaches.length ≤ 50) ∧
    (∀ (st : CacheStore) (n : CacheModel) (raw : Nat → Except String Unit),
        st.dsCaches.length = 50 →
        mapGet st.cacheMap (cacheKeyOf n) = none →
        safeStorageSet (raw 0) = true →
        (runSave st n raw).dsCaches =
            (jsMergeSort dateDescLe st.dsCaches).take 40 ++ [n] ∧
          (runSave st n raw).dsCaches.length = 41) := by
  constructor
  · intro ops
    unfold runSaves
    suffices h : ∀ st : CacheStore, st.dsCaches.length ≤ 50 →
        (ops.foldl (fun s op => runSave s op.1 op.2) st).dsCaches.length ≤ 50 by
      exact h _ (by simp)
    induction ops with
    | nil => intro st hst; simpa using hst
    | cons op rest ih =>
      intro st hst
      simp only [List.foldl_cons]
      exact ih _ (runSave_length_le st op.1 op.2 hst)
  · intro st n raw h50 hnew hsaved
    have hge : st.dsCaches.length ≥ MAX_CACHE_SIZE := by
      simp [MAX_CACHE_SIZE, h50]
    have hins : (insertPhase st n).dsCaches =
        (jsMergeSort dateDescLe st.dsCaches).take 40 ++ [n] := by
      simp only [insertPhase]
      rw [hnew, if_pos hge]
      rfl
    have hrun : runSave st n raw = insertPhase st n := by
      rw [runSave_eq, if_pos hsaved]
    refine ⟨by rw [hrun, hins], ?_⟩
    rw [hrun, hins]
    simp [List.length_take, length_jsMergeSort, h50]

/-- C2 witness: the amended eviction behaviour at a concrete 50-entry store
with succeeding storage. -/
theorem c2_cache_bound_witness :
    store50.dsCaches.length = 50 ∧
    (runSave store50 (mkCacheEntry 99) okStorage).dsCaches.length = 41 :=
  ⟨by decide,
    (c2_cache_bound.2 store50 (mkCacheEntry 99) okStorage (by decide) (by decide)
      (by decide)).2⟩

/-- C2 counterexample: with 50 entries, a fresh key and a storage whose
persist fails, the retry path evicts a second time and the save returns with
40 entries, not the claimed 41. -/
theorem c2_cache_bound_counterexample :
    store50.dsCaches.length = 50 ∧
    mapGet store50.cacheMap (cacheKeyOf (mkCacheEntry 99)) = none ∧
    (runSave store50 (mkCacheEntry 99) failStorage).dsCaches.length = 40 ∧
    ¬(runSave store50 (mkCacheEntry 99) failStorage).dsCaches.length = 41 := by
  refine ⟨by decide, by decide, by decide, by decide⟩

theorem foldl_mapSet_fresh (cs : List RawCache) :
    ∀ m : List (String × RawCache),
      (∀ c ∈ cs, m.any (fun p => p.1 == rawCacheKey c) = false) →
      (cs.map rawCacheKey).Nodup →
      cs.foldl (fun m c => mapSet m (rawCacheKey c) c) m =
        m ++ cs.map (fun c => (rawCacheKey c, c)) := by
  induction cs with
  | nil => intro m _ _; simp
  | cons c rest ih =>
    intro m hm hnd
    rw [List.map_cons] at hnd
    rcases List.nodup_cons.mp hnd with ⟨hcnot, hndrest⟩
    simp only [List.foldl_cons]
    have hset : mapSet m (rawCacheKey c) c = m ++ [(rawCacheKey c, c)] := by
      unfold mapSet
      rw [hm c (List.mem_cons_self _ _)]
      simp
    rw [hset, ih (m ++ [(rawCacheKey c, c)]) ?_ hndrest]
    · simp
    · intro c' hc'
      have h1 : m.any (fun p => p.1 == rawCacheKey c') = false :=
        hm c' (List.mem_cons_of_mem _ hc')
      have h2 : ¬rawCacheKey c = rawCacheKey c' := by
        intro he
        exact hcnot (he ▸ List.mem_map_of_mem rawCacheKey hc')
      simp [List.any_append, h1, h2]

theorem rebuildCacheMap_eq (cs : List RawCache) (hnd : (cs.map rawCacheKey).Nodup) :
    rebuildCacheMap cs = cs.map (fun c => (rawCacheKey c, c)) := by
  unfold rebuildCacheMap
  rw [foldl_mapSet_fresh cs [] (fun c _ => rfl) hnd]
  simp

/-- C6 (amended): after the construction-time load, an entry survives iff it
came from the persisted array with truthy `id`, `pathName` and `state` and a
valid (parsable, younger than 168h) date — so entries missing those keys or
with an expired/missing/unparsable date are absent; the rebuilt index maps
each key to the *last* surviving entry with that key, so whenever the
surviving entries have pairwise distinct keys it contains exactly the
survivors. -/
theorem c6_load_filtering :
    (∀ (parsed : List RawCache) (pd : String → Option Int) (now : Int) (c : RawCache),
        c ∈ (loadDsCaches parsed pd now).1 ↔
          c ∈ parsed ∧ jsTruthyOptStr c.id = true ∧ jsTruthyOptStr c.pathName = true ∧
            jsTruthyOptStr c.state = true ∧ isCacheValid pd now c = true) ∧
    (∀ (parsed : List RawCache) (pd : String → Option Int) (now : Int),
        ((loadDsCaches parsed pd now).1.map rawCacheKey).Nodup →
        (loadDsCaches parsed pd now).2 =
          (loadDsCaches parsed pd now).1.map (fun c => (rawCacheKey c, c))) := by
  constructor
  · intro parsed pd now c
    simp [loadDsCaches, List.mem_filter]
    tauto
  · intro parsed pd now hnd
    exact rebuildCacheMap_eq _ hnd

/-- C6 witness: the amended index equation at a one-entry store. -/
theorem c6_load_filtering_witness :
    ((loadDsCaches [c6Dup1] parseDateStub 100).1.map rawCacheKey).Nodup ∧
    (loadDsCaches [c6Dup1] parseDateStub 100).2 =
      (loadDsCaches [c6Dup1] parseDateStub 100).1.map (fun c => (rawCacheKey c, c)) :=
  ⟨by decide, c6_load_filtering.2 [c6Dup1] parseDateStub 100 (by decide)⟩

/-- C6 counterexample: two complete, fresh entries sharing the key
`grid|/list` both survive the load filter, but the rebuilt index holds a
single entry for that key — the index does not contain exactly the surviving
entries. -/
theorem c6_load_index_counterexample :
    (loadDsCaches [c6Dup1, c6Dup2] parseDateStub 100).1 = [c6Dup1, c6Dup2] ∧
    (loadDsCaches [c6Dup1, c6Dup2] parseDateStub 100).2.length = 1 ∧
    ¬(loadDsCaches [c6Dup1, c6Dup2] parseDateStub 100).2.length = 2 := by
  refine ⟨by decide, by decide, by decide⟩

/-- C9: whichever transport (GET or POST) invokes the callback with a result,
the callback performs, in order: emit `onDataLoaded(result)`, `setData(result)`,
emit `onStateChanged('DataLoaded')`, set `isLoading := false` — and exactly
when the result carries the error flag it additionally clears the sort and
pagination state. -/
theorem c9_remote_callback_order (r : LdsInputModel) (ds : RemoteDs) :
    ((getMethodCallback r ds).events =
        ds.events ++
          [RemoteAction.dataLoaded r, RemoteAction.setDataCall r,
            RemoteAction.stateChanged "DataLoaded", RemoteAction.setIsLoading false] ++
          (if r.error then [RemoteAction.clearStateCall] else []) ∧
      (getMethodCallback r ds).isLoading = false ∧
      (getMethodCallback r ds).items = r.items ∧
      (getMethodCallback r ds).total = r.total ∧
      (getMethodCallback r ds).sort1Name = (if r.error then none else ds.sort1Name) ∧
      (getMethodCallback r ds).sort1Dir = (if r.error then none else ds.sort1Dir) ∧
      (getMethodCallback r ds).pageIndex = (if r.error then 0 else ds.pageIndex)) ∧
    ((postMethodCallback r ds).events =
        ds.events ++
          [RemoteAction.dataLoaded r, RemoteAction.setDataCall r,
            RemoteAction.stateChanged "DataLoaded", RemoteAction.setIsLoading false] ++
          (if r.error then [RemoteAction.clearStateCall] else []) ∧
      (postMethodCallback r ds).isLoading = false ∧
      (postMethodCallback r ds).items = r.items ∧
      (postMethodCallback r ds).total = r.total ∧
      (postMethodCallback r ds).sort1Name = (if r.error then none else ds.sort1Name) ∧
      (postMethodCallback r ds).sort1Dir = (if r.error then none else ds.sort1Dir) ∧
      (postMethodCallback r ds).pageIndex = (if r.error then 0 else ds.pageIndex)) := by
  cases hr : r.error <;>
    simp [getMethodCallback, postMethodCallback, emitDataLoaded, setData,
      emitStateChanged, setLoading, clearState, hr]

end Lds
